import Mathlib

/-!
Verification of the testpilot test runner.

The definitions below are shallow embeddings of the TypeScript sources:
- `parseCommand` embeds the command tokenizer of `src/runner.ts`;
- `parseAgentResponse`, `buildUserMessage`, `ACTION_SCHEMA` embed `src/llm-shared.ts`;
- `anthropicTurn` / `githubTurn` embed the conversation-history handling of
  `src/providers/anthropic.ts` and `src/providers/github-models.ts`;
- `callApi` embeds the retry loops of the `callApi` method of the two providers;
- `runStepLoop` / `runStep` / `runCase` embed the per-step iteration loop and
  the per-case driver of `runTestCase` in `src/runner.ts`.

External collaborators (the agent-browser subprocess, the HTTP transport, the
JSON.parse builtin) are modelled as explicit environment parameters, so
every theorem quantifies over their behaviour.
-/

namespace Testpilot

/-- JavaScript regular-expression whitespace class (the set matched by /\s/),
used by the command tokenizer. Also the set trimmed by String.prototype.trim
and skipped by parseInt. -/
def jsWhitespace (c : Char) : Bool :=
  decide ((9 ≤ c.toNat ∧ c.toNat ≤ 13) ∨ c.toNat = 32 ∨ c.toNat = 160 ∨
    c.toNat = 5760 ∨ (8192 ≤ c.toNat ∧ c.toNat ≤ 8202) ∨ c.toNat = 8232 ∨
    c.toNat = 8233 ∨ c.toNat = 8239 ∨ c.toNat = 8287 ∨ c.toNat = 12288 ∨
    c.toNat = 65279)

/-- Character loop of `parseCommand` (src/runner.ts): `cur` is the token being
accumulated, the `Option Char` is the `inQuote` variable (the open quote
character, if inside a quoted span), `args` the tokens emitted so far. -/
def parseCmdAux : List Char → List Char → Option Char → List String → List String
  | [], cur, _, args => if cur = [] then args else args ++ [String.mk cur]
  | c :: rest, cur, some q, args =>
      if c = q then parseCmdAux rest cur none args
      else parseCmdAux rest (cur ++ [c]) (some q) args
  | c :: rest, cur, none, args =>
      if c = '"' ∨ c = '\'' then parseCmdAux rest cur (some c) args
      else if jsWhitespace c then
        if cur = [] then parseCmdAux rest [] none args
        else parseCmdAux rest [] none (args ++ [String.mk cur])
      else parseCmdAux rest (cur ++ [c]) none args

/-- Function `parseCommand` from src/runner.ts: tokenize a command string, honouring
single- and double-quoted spans (quote characters stripped, whitespace inside
quotes preserved). -/
def parseCommand (cmd : String) : List String :=
  parseCmdAux cmd.data [] none []

/-- Joining a token list with single spaces, as in the re-join/re-parse
property of the spec (spec section 8, first bullet). -/
def joinSpace : List String → String
  | [] => ""
  | [t] => t
  | t :: ts => t ++ " " ++ joinSpace ts

/-- Characters that survive a re-join/re-parse round trip unchanged: not
whitespace (would split a token) and not a quote character (would open a
quoted span on re-parse). -/
def goodChar (c : Char) : Prop :=
  jsWhitespace c = false ∧ c ≠ '"' ∧ c ≠ '\''

instance goodChar_decidable (c : Char) : Decidable (goodChar c) :=
  inferInstanceAs (Decidable (jsWhitespace c = false ∧ c ≠ '"' ∧ c ≠ '\''))

/-- JavaScript String.prototype.trim: strip leading and trailing whitespace
(same character class as /\s/). -/
def jsTrim (s : String) : String :=
  String.mk (((s.data.dropWhile jsWhitespace).reverse.dropWhile jsWhitespace).reverse)

/-- UTF-16 length of a character, for modelling JavaScript String.prototype.slice,
which counts UTF-16 code units. -/
def utf16Len (c : Char) : Nat := if c.toNat < 65536 then 1 else 2

/-- Helper loop for `jsSlice`. -/
def jsSliceAux : List Char → Nat → List Char
  | [], _ => []
  | c :: cs, n => if utf16Len c ≤ n then c :: jsSliceAux cs (n - utf16Len c) else []

/-- JavaScript `s.slice(0, n)`: the prefix of at most `n` UTF-16 code units
(a surrogate pair is kept only if both units fit). -/
def jsSlice (s : String) (n : Nat) : String := String.mk (jsSliceAux s.data n)

/-- Opening-fence removal of `parseAgentResponse` (src/llm-shared.ts): the
first match of the pattern consisting of three backticks, an optional `json`,
and an optional newline, removed from the front. Only called on strings that
start with three backticks. -/
def stripFenceOpen (s : String) : String :=
  if s.startsWith "```json\n" then s.drop 8
  else if s.startsWith "```json" then s.drop 7
  else if s.startsWith "```\n" then s.drop 4
  else s.drop 3

/-- Closing-fence removal of `parseAgentResponse`: an optional newline and
three backticks at the very end of the string, removed. -/
def stripFenceClose (s : String) : String :=
  if s.endsWith "\n```" then s.dropRight 4
  else if s.endsWith "```" then s.dropRight 3
  else s

/-- Markdown code-fence stripping of `parseAgentResponse`: trim, then if the
result starts with three backticks remove the opening and closing fences. -/
def stripFences (raw : String) : String :=
  let cleaned := jsTrim raw
  if cleaned.startsWith "```" then stripFenceClose (stripFenceOpen cleaned)
  else cleaned

/-- AgentAction (src/types.ts): the structured decision returned to the step
loop. -/
structure AgentAction where
  thought : String
  commands : List String
  done : Bool
  success : Bool
  actual_result : String
deriving Repr, DecidableEq

/-- Fields of a successfully JSON-parsed response object, after the JavaScript
coercions of `parseAgentResponse` (`none` stands for an absent or falsy
`thought`/`actual_result` and for a non-array `commands`, which the code
replaces by the defaults). `JSON.parse` itself is an external builtin and is
passed in as the `jsonParse` oracle below. -/
structure ParsedFields where
  thought : Option String
  commands : Option (List String)
  done : Bool
  success : Bool
  actual_result : Option String

/-- Function `parseAgentResponse` from src/llm-shared.ts: strip code fences, attempt a
JSON parse, and on failure return the safe default action (no commands, not
done, rationale carrying a 200-unit excerpt of the raw text). -/
def parseAgentResponse (jsonParse : String → Option ParsedFields) (raw : String) :
    AgentAction :=
  match jsonParse (stripFences raw) with
  | some p =>
      { thought := p.thought.getD "", commands := p.commands.getD [],
        done := p.done, success := p.success,
        actual_result := p.actual_result.getD "" }
  | none =>
      { thought := "Parse error — raw response: " ++ jsSlice raw 200,
        commands := [], done := false, success := false, actual_result := "" }

/-- LLMRequest (src/llm-shared.ts, with the iteration fields the runner
passes): goal context, current observation, commands already executed this
step, and the iteration indices. -/
structure LLMRequest where
  systemPrompt : String
  stepDescription : String
  expectedResult : String
  browserState : String
  previousActions : List String
  pageUrl : String
  pageTitle : String
  iteration : Nat
  maxIterations : Nat
deriving Repr, DecidableEq

/-- JavaScript `arr.slice(-3)`: the last three elements (all of them when the
list is shorter). -/
def lastThree (l : List String) : List String := l.drop (l.length - 3)

/-- Function `buildUserMessage` from src/llm-shared.ts: the user turn sent to an
autonomous decision source, byte for byte. -/
def buildUserMessage (r : LLMRequest) : String :=
  let head :=
    if r.previousActions.length = 0 then
      "## Current Test Step\n\n" ++ "**Action:** " ++ r.stepDescription ++ "\n" ++
        "**Expected result:** " ++ r.expectedResult ++ "\n\n"
    else
      "## After executing: " ++ String.intercalate ", " (lastThree r.previousActions) ++ "\n\n"
  let mid := head ++ "**Page URL:** " ++ r.pageUrl ++ "\n" ++
    "**Page title:** " ++ r.pageTitle ++ "\n\n" ++
    "## Browser Accessibility Snapshot\n\n" ++ "```\n" ++ r.browserState ++ "\n```\n"
  let withCmds :=
    if r.previousActions.length > 0 then
      mid ++ "\n## Commands executed so far this step\n\n" ++
        String.intercalate "\n" (r.previousActions.map (fun c => "- `" ++ c ++ "`")) ++ "\n"
    else mid
  withCmds ++ "\nDecide the next action(s). Respond with JSON only."

/-- ACTION_SCHEMA from src/llm-shared.ts: the response-format instructions
appended to the system prompt by both autonomous adapters. -/
def ACTION_SCHEMA : String :=
  "You MUST respond with ONLY a valid JSON object (no markdown, no backticks, no explanation outside the JSON). The schema:\n" ++
  "\x7b\n" ++
  "  \"thought\": \"your reasoning about what to do next\",\n" ++
  "  \"commands\": [\"command1\", \"command2\"],\n" ++
  "  \"done\": false,\n" ++
  "  \"success\": false,\n" ++
  "  \"actual_result\": \"\"\n" ++
  "\x7d\n\n" ++
  "Fields:\n" ++
  "- thought: brief reasoning about the current state and what you\x27ll do\n" ++
  "- commands: array of agent-browser CLI commands to execute (e.g. [\"click @e5\", \"wait 1500\"])\n" ++
  "- done: true if the step is COMPLETE (either passed or failed), false if more actions needed\n" ++
  "- success: true if the expected result is achieved (only meaningful when done=true)\n" ++
  "- actual_result: what actually happened (only meaningful when done=true)\n\n" ++
  "IMPORTANT:\n" ++
  "- Return 1-3 commands at a time, then wait for the next snapshot.\n" ++
  "- After any click/fill/navigation, your commands list should end there — you need a fresh snapshot before continuing.\n" ++
  "- When done=false, you MUST provide at least one command.\n" ++
  "- When done=true, commands can be empty."

/-- Role-tagged chat message of the conversation histories kept by the adapters. -/
structure ChatMessage where
  role : String
  content : String
deriving Repr, DecidableEq

/-- Messages sent on one `decideAction` call and the conversation history
after it. -/
structure TurnResult where
  sent : List ChatMessage
  newHistory : List ChatMessage
deriving Repr, DecidableEq

/-- One `decideAction` turn of the AnthropicAdapter
(src/providers/anthropic.ts): reset the history when the request carries no
prior commands; send the history plus the new user message (the system prompt
travels as a top-level parameter, not a message); append the user message and
the raw response to the history. `resp` is the raw response text returned by
the transport. -/
def anthropicTurn (h : List ChatMessage) (r : LLMRequest) (resp : String) : TurnResult :=
  let h0 := if r.previousActions.length = 0 then [] else h
  let u := buildUserMessage r
  { sent := h0 ++ [⟨"user", u⟩],
    newHistory := h0 ++ [⟨"user", u⟩, ⟨"assistant", resp⟩] }

/-- One `decideAction` turn of the GitHubModelsAdapter
(src/providers/github-models.ts): same history lifecycle as the Anthropic
variant, but the system prompt is sent as a leading system message. -/
def githubTurn (h : List ChatMessage) (r : LLMRequest) (resp : String) : TurnResult :=
  let h0 := if r.previousActions.length = 0 then [] else h
  let u := buildUserMessage r
  { sent := ⟨"system", r.systemPrompt ++ "\n\n## Response Format\n\n" ++ ACTION_SCHEMA⟩ ::
      (h0 ++ [⟨"user", u⟩]),
    newHistory := h0 ++ [⟨"user", u⟩, ⟨"assistant", resp⟩] }

/-- Decimal value of the leading digit run of a character list (`none` when
there is no leading digit), for modelling JavaScript parseInt. -/
def digitsVal (cs : List Char) : Option Nat :=
  let ds := cs.takeWhile Char.isDigit
  if ds = [] then none
  else some (ds.foldl (fun a c => a * 10 + (c.toNat - 48)) 0)

/-- JavaScript `parseInt(s, 10)`: skip leading whitespace, read an optional
sign and then the longest run of decimal digits; `none` models NaN. -/
def jsParseInt (s : String) : Option Int :=
  match s.data.dropWhile jsWhitespace with
  | '-' :: rest => (digitsVal rest).map (fun n => -(n : Int))
  | '+' :: rest => (digitsVal rest).map (fun n => (n : Int))
  | cs => (digitsVal cs).map (fun n => (n : Int))

/-- Wait computation of the 429 branch in the `callApi` method of both adapters: use the
retry-after header when it parses to a value in 1–60 seconds, else fall back
to `min(10 * (attempt + 1), 30)`. An absent header (and an empty header value,
which is falsy in JavaScript) takes the fallback. -/
def wait429 (retryAfter : Option String) (attempt : Nat) : Nat :=
  match retryAfter.bind jsParseInt with
  | some w => if 0 < w ∧ w ≤ 60 then w.toNat else min (10 * (attempt + 1)) 30
  | none => min (10 * (attempt + 1)) 30

/-- The two autonomous decision-source variants. -/
inductive Provider where
  | anthropic
  | github
deriving DecidableEq, Repr

/-- One HTTP response of the decision-source transport, as the retry loop
observes it: a status code, the retry-after header if any, and the relevant
text (the extracted text payload for a success, the error body otherwise).
The transport itself (fetch and the response-body JSON handling) is external
and is passed in as a function of the attempt number. -/
structure ApiResponse where
  status : Nat
  retryAfter : Option String
  body : String
deriving Repr

/-- Trace of one `callApi` run: the waits slept (in seconds), the number of
transport calls made, and the final result (response text, or the thrown
message of the thrown error). -/
structure CallOutcome where
  waits : List Nat
  calls : Nat
  result : Except String String
deriving Repr

/-- Fatal (non-retried) error message of the two adapters, with the error
body truncated to 500 units as in the source. -/
def fatalMsg (p : Provider) (status : Nat) (body : String) : String :=
  (match p with
   | .anthropic => "Anthropic API error "
   | .github => "GitHub Models API error ") ++ toString status ++ ": " ++ jsSlice body 500

/-- Retry ceiling of the `callApi` method of both adapters (3 retries, 4 total attempts). -/
def MAX_RETRIES : Nat := 3

/-- Retry loop of `callApi` (src/providers/anthropic.ts and
src/providers/github-models.ts): `remaining` counts the attempts left
(`MAX_RETRIES + 1 - attempt`). 429 is retried by both providers, 529 only by
the Anthropic variant; any other non-2xx status throws immediately; loop
exhaustion throws the last transient error. -/
def callApiLoop (p : Provider) (transport : Nat → ApiResponse) :
    Nat → Nat → Option String → List Nat → CallOutcome
  | 0, attempt, lastError, waits =>
      { waits := waits, calls := attempt,
        result := .error (lastError.getD "Max retries exceeded") }
  | remaining + 1, attempt, _lastError, waits =>
      let r := transport attempt
      if r.status = 429 then
        callApiLoop p transport remaining (attempt + 1) (some "Rate limited (429)")
          (waits ++ [wait429 r.retryAfter attempt])
      else if p = Provider.anthropic ∧ r.status = 529 then
        callApiLoop p transport remaining (attempt + 1) (some "Anthropic overloaded (529)")
          (waits ++ [min (15 * (attempt + 1)) 45])
      else if 200 ≤ r.status ∧ r.status ≤ 299 then
        { waits := waits, calls := attempt + 1, result := .ok r.body }
      else
        { waits := waits, calls := attempt + 1,
          result := .error (fatalMsg p r.status r.body) }

/-- Method `callApi` of the two adapters: run the retry loop from attempt 0. -/
def callApi (p : Provider) (transport : Nat → ApiResponse) : CallOutcome :=
  callApiLoop p transport (MAX_RETRIES + 1) 0 none []

/-- Observation: the snapshot/URL/title triple captured from the browser
collaborator (`getSnapshot`/`getUrl`/`getTitle` in src/browser.ts, three calls
made together by the runner). -/
structure Observation where
  snapshot : String
  url : String
  title : String
deriving Repr, DecidableEq

/-- Step/case status values of src/types.ts (`skipped` appears in the type but
is never produced by the runner loop). -/
inductive Status where
  | pass
  | fail
  | error
  | skipped
deriving DecidableEq, Repr

/-- Result of one agent-browser invocation (src/browser.ts,
`runBrowserCommand`): it never throws, failures come back as
`success := false`. -/
structure BrowserCommandResult where
  stdout : String
  stderr : String
  success : Bool
deriving Repr, DecidableEq

/-- One test step of a test case (step number, action text, expected text). -/
structure TestStep where
  step : Nat
  action : String
  expected : String
deriving Repr, DecidableEq

/-- External world of one step run, as the catch block of `runTestCase` sees
it: the n-th observation capture, the decision source (which really can throw
— the retry policy rethrows after exhaustion and on fatal statuses), the
agent-browser command runner, and the end-of-step screenshot. The `Except`
channel of `capture` and `shot` generalizes what the catch block could see;
in the program itself both are built on `runBrowserCommand` (src/browser.ts),
which catches every subprocess failure and returns `success := false`, so
their error branch is never taken there — `captureFromBrowser` below is that
faithful browser-layer instantiation, and it always returns `Except.ok`. -/
structure StepEnv where
  capture : Nat → Except String Observation
  decide : LLMRequest → Except String AgentAction
  run : List String → BrowserCommandResult
  shot : Except String String

/-- Iteration ceiling of the step loop (src/runner.ts, `MAX_ITERATIONS`). -/
def MAX_ITERATIONS : Nat := 10

/-- Mutable state of the command-dispatch inner loop: current observation,
commands executed so far this step, and how many captures have been made. -/
structure DispatchState where
  obs : Observation
  allCommands : List String
  capCount : Nat
deriving Repr, DecidableEq

/-- Inner command loop of `runTestCase`: the `__SNAPSHOT__` sentinel refreshes
the observation in place (and is not recorded); every other command is parsed,
sent to the browser, and recorded regardless of whether it reported success.
Returns the state reached and the error message if a sentinel re-capture
threw. (Console logging and the post-command settle delay have no effect on
the recorded state and are omitted.) -/
def dispatchCommands (env : StepEnv) : List String → DispatchState → DispatchState × Option String
  | [], st => (st, none)
  | cmd :: rest, st =>
      if cmd = "__SNAPSHOT__" then
        match env.capture st.capCount with
        | .error e => (st, some e)
        | .ok o => dispatchCommands env rest ⟨o, st.allCommands, st.capCount + 1⟩
      else
        let _ := env.run (parseCommand cmd)
        dispatchCommands env rest ⟨st.obs, st.allCommands ++ [cmd], st.capCount⟩

/-- The LLMRequest built by `runTestCase` at iteration `iter` (0-based; the
request carries `iter + 1`). -/
def mkRequest (sys : String) (s : TestStep) (st : DispatchState) (iter : Nat) : LLMRequest :=
  { systemPrompt := sys, stepDescription := s.action, expectedResult := s.expected,
    browserState := st.obs.snapshot, previousActions := st.allCommands,
    pageUrl := st.obs.url, pageTitle := st.obs.title,
    iteration := iter + 1, maxIterations := MAX_ITERATIONS }

/-- How the iteration loop ended: normally (with the `stepStatus` and
`actualResult` variables as the loop left them — the post-loop timeout check
is applied afterwards in `runStep`), or by a thrown exception. -/
inductive LoopExit where
  | normal (stepStatus : Status) (actual : String)
  | err (msg : String)
deriving Repr, DecidableEq

/-- Trace of one run of the iteration loop: how it ended, the recorded
commands, the number of decision-source calls, and the capture counter. -/
structure LoopResult where
  exit : LoopExit
  allCommands : List String
  decideCalls : Nat
  capCount : Nat
deriving Repr, DecidableEq

/-- The per-step iteration loop of `runTestCase` (src/runner.ts): at each
remaining-fuel level, build the request, consult the decision source, dispatch
its commands, and either finish (completion flag set: pass/fail by the success
flag, observed-outcome text verbatim) or re-capture and iterate. Any thrown
failure ends the loop with `LoopExit.err`. `fuel` is the number of iterations
left (`MAX_ITERATIONS - iter`). -/
def runStepLoop (env : StepEnv) (sys : String) (s : TestStep) :
    Nat → DispatchState → Nat → LoopResult
  | 0, st, calls => ⟨.normal .pass "", st.allCommands, calls, st.capCount⟩
  | fuel + 1, st, calls =>
      match env.decide (mkRequest sys s st (MAX_ITERATIONS - (fuel + 1))) with
      | .error e => ⟨.err e, st.allCommands, calls + 1, st.capCount⟩
      | .ok action =>
          match dispatchCommands env action.commands st with
          | (st1, some e) => ⟨.err e, st1.allCommands, calls + 1, st1.capCount⟩
          | (st1, none) =>
              if action.done then
                ⟨.normal (if action.success then .pass else .fail) action.actual_result,
                  st1.allCommands, calls + 1, st1.capCount⟩
              else
                match env.capture st1.capCount with
                | .error e => ⟨.err e, st1.allCommands, calls + 1, st1.capCount⟩
                | .ok o => runStepLoop env sys s fuel ⟨o, st1.allCommands, st1.capCount + 1⟩ (calls + 1)

/-- The message recorded when the loop exhausts its iterations without a
completion signal. -/
def stepTimeoutMessage : String :=
  "Step timed out after " ++ toString MAX_ITERATIONS ++ " iterations without reaching a conclusion."

/-- StepResult of src/types.ts (the fields the loop determines; timing is
external). -/
structure StepResult where
  step : Nat
  action : String
  expected : String
  status : Status
  actual : String
  commands_executed : List String
  screenshotPath : Option String
deriving Repr, DecidableEq

/-- One step of `runTestCase`: initial capture (a throw here is caught and
becomes status "error" with the message), then the iteration loop, then the
post-loop timeout check (`stepStatus === "pass" && actualResult === ""`
becomes a fail with the timeout message), then the best-effort screenshot.
Also returns the number of decision-source calls made. -/
def runStep (env : StepEnv) (sys : String) (s : TestStep) : StepResult × Nat :=
  let shotPath : Option String := match env.shot with | .ok p => some p | .error _ => none
  match env.capture 0 with
  | .error e =>
      (⟨s.step, s.action, s.expected, .error, "Error: " ++ e, [], shotPath⟩, 0)
  | .ok o =>
      let r := runStepLoop env sys s MAX_ITERATIONS ⟨o, [], 1⟩ 0
      match r.exit with
      | .err e =>
          (⟨s.step, s.action, s.expected, .error, "Error: " ++ e, r.allCommands, shotPath⟩,
            r.decideCalls)
      | .normal stt act =>
          if stt = .pass ∧ act = "" then
            (⟨s.step, s.action, s.expected, .fail, stepTimeoutMessage, r.allCommands, shotPath⟩,
              r.decideCalls)
          else
            (⟨s.step, s.action, s.expected, stt, act, r.allCommands, shotPath⟩, r.decideCalls)

/-- External world of one case run: a step environment per step index. -/
structure CaseEnv where
  stepEnv : Nat → StepEnv

/-- JavaScript `status.toUpperCase()` on the status strings. -/
def statusUpper : Status → String
  | .pass => "PASS"
  | .fail => "FAIL"
  | .error => "ERROR"
  | .skipped => "SKIPPED"

/-- Step sequencing of `runTestCase`: run each step in order, update the
overall status (an abnormal step makes the case "error" if the step errored,
else "fail"), append the step result, and stop immediately after a step whose
status is "error". -/
def runCaseSteps (cenv : CaseEnv) (sys : String) :
    List TestStep → Nat → Status → List StepResult → Status × List StepResult
  | [], _, overall, acc => (overall, acc)
  | s :: rest, i, overall, acc =>
      let res := (runStep (cenv.stepEnv i) sys s).1
      let overall1 := if res.status ≠ Status.pass then
          (if res.status = Status.error then Status.error else Status.fail)
        else overall
      let acc1 := acc ++ [res]
      if res.status = Status.error then (overall1, acc1)
      else runCaseSteps cenv sys rest (i + 1) overall1 acc1

/-- TestReport of src/types.ts (the fields the driver determines). -/
structure CaseResult where
  status : Status
  steps : List StepResult
  summary : String
deriving Repr, DecidableEq

/-- The per-case driver of `runTestCase`: sequence the steps from an initial
"pass" status and build the report with its summary line. -/
def runCase (cenv : CaseEnv) (sys : String) (testId : String) (steps : List TestStep) :
    CaseResult :=
  let p := runCaseSteps cenv sys steps 0 .pass []
  { status := p.1, steps := p.2,
    summary := "Test " ++ testId ++ " " ++ statusUpper p.1 ++ ". " ++
      toString ((p.2.filter (fun r => r.status = Status.pass)).length) ++ "/" ++
      toString p.2.length ++ " steps passed." }

/-- Aggregate-status precedence rule as the spec words it (section 3,
CaseOutcome): any error step makes the case "error"; else any fail makes it
"fail"; else "pass". Stated from the words of the spec, for comparison with the
status `runCase` computes. -/
def aggregateSpec (rs : List StepResult) : Status :=
  if rs.any (fun r => r.status = Status.error) then Status.error
  else if rs.any (fun r => r.status = Status.fail) then Status.fail
  else Status.pass

/-- Concrete observation used by the witness environments. -/
def obsW : Observation := ⟨"snap", "url", "title"⟩

/-- Witness environment: decision source that never sets the completion flag. -/
def envNoDone : StepEnv :=
  { capture := fun _ => .ok obsW,
    decide := fun _ => .ok ⟨"thinking", [], false, false, ""⟩,
    run := fun _ => ⟨"", "", true⟩,
    shot := .ok "shot.png" }

/-- Observation capture exactly as the runner performs it (`getSnapshot`,
`getUrl`, `getTitle` in src/browser.ts, each a `runBrowserCommand` call):
`runBrowserCommand` catches every subprocess failure and returns
`success := false` instead of throwing, and the three helpers return
`stdout` unconditionally — so a capture built on the browser layer always
returns `Except.ok`, whatever the transport does; the error branch of
`StepEnv.capture` is unreachable from the browser collaborator. -/
def captureFromBrowser (runCmd : List String → BrowserCommandResult) :
    Except String Observation :=
  Except.ok ⟨(runCmd ["snapshot", "-i", "-c"]).stdout,
    (runCmd ["get", "url"]).stdout,
    (runCmd ["get", "title"]).stdout⟩

/-- Step environment wired through the browser layer as in the source:
capture and dispatch share the transport, and the screenshot path is returned
unconditionally (`takeStepScreenshot` ignores the screenshot command result). -/
def browserStepEnv (runCmd : List String → BrowserCommandResult)
    (decide : LLMRequest → Except String AgentAction) (shotPath : String) : StepEnv :=
  { capture := fun _ => captureFromBrowser runCmd,
    decide := decide,
    run := runCmd,
    shot := .ok shotPath }

/-- Transport of a browser whose every command fails (e.g., the agent-browser
daemon is down): the subprocess rejects, `runBrowserCommand` catches it and
returns empty stdout with `success := false`. -/
def failingBrowser : List String → BrowserCommandResult :=
  fun _ => ⟨"", "agent-browser: browser daemon not running", false⟩

/-- Failing-input environment: the broken browser above together with a
decision source that never sets the completion flag. -/
def envBrokenBrowser : StepEnv :=
  browserStepEnv failingBrowser (fun _ => .ok ⟨"thinking", [], false, false, ""⟩) "s.png"

/-- Failing-input case environment: every step sees the broken browser. -/
def cenvBrokenBrowser : CaseEnv := ⟨fun _ => envBrokenBrowser⟩

/-- Counterexample environment: completion and success flags set on the first
iteration but with an empty observed-outcome text. -/
def envDoneEmpty : StepEnv :=
  { capture := fun _ => .ok obsW,
    decide := fun _ => .ok ⟨"", [], true, true, ""⟩,
    run := fun _ => ⟨"", "", true⟩,
    shot := .ok "s.png" }

/-- Witness environment: completion and success flags set on the first
iteration with a nonempty observed-outcome text. -/
def envDoneOk : StepEnv :=
  { capture := fun _ => .ok obsW,
    decide := fun _ => .ok ⟨"", [], true, true, "all good"⟩,
    run := fun _ => ⟨"", "", true⟩,
    shot := .ok "s.png" }

/-- Witness environment: decision source whose raw response is unparsable. -/
def envParseFail : StepEnv :=
  { capture := fun _ => .ok obsW,
    decide := fun _ => .ok (parseAgentResponse (fun _ => none) "oops not json"),
    run := fun _ => ⟨"", "", true⟩,
    shot := .ok "s.png" }

/-- Witness environment: a judged-fail first step. -/
def envFailStep : StepEnv :=
  { capture := fun _ => .ok obsW,
    decide := fun _ => .ok ⟨"", [], true, false, "did not match"⟩,
    run := fun _ => ⟨"", "", true⟩,
    shot := .ok "s.png" }

/-- Witness environment: a passing step. -/
def envPassStep : StepEnv :=
  { capture := fun _ => .ok obsW,
    decide := fun _ => .ok ⟨"", [], true, true, "matched"⟩,
    run := fun _ => ⟨"", "", true⟩,
    shot := .ok "s.png" }

/-- Witness case environment: first step fails, later steps pass. -/
def cenvW : CaseEnv := ⟨fun i => if i = 0 then envFailStep else envPassStep⟩

/-- C8: the five concrete tokenizer behaviours named by the spec: quoted span
with a space kept as one token; plain two-token command; double quotes
preserved inside single-quote delimiters; empty input gives an empty list; an
unterminated quote extends to the end of the string instead of failing. -/
theorem C8_parse_examples :
    parseCommand "fill @e2 \"hello world\"" = ["fill", "@e2", "hello world"] ∧
    parseCommand "click @e3" = ["click", "@e3"] ∧
    parseCommand "fill @e2 \x27some \"value\"\x27" = ["fill", "@e2", "some \"value\""] ∧
    parseCommand "" = [] ∧
    parseCommand "fill @e2 \"hello" = ["fill", "@e2", "hello"] := by
  refine ⟨?_, ?_, ?_, ?_, ?_⟩ <;> rfl

/-- Helper: `String.mk` of a nonempty character list is not the empty string. -/
theorem mk_ne_empty {cur : List Char} (h : cur ≠ []) : String.mk cur ≠ "" := by
  intro hc
  apply h
  have hdata : (String.mk cur).data = String.data "" := congrArg String.data hc
  simpa using hdata

/-- Helper: the tokenizer never emits an empty token (a token is pushed only
when the accumulator is nonempty). -/
theorem parseCmdAux_ne_nil (l : List Char) :
    ∀ cur q args, (∀ a ∈ args, a ≠ "") → ∀ t ∈ parseCmdAux l cur q args, t ≠ "" := by
  induction l with
  | nil =>
    intro cur q args hargs t ht
    simp only [parseCmdAux] at ht
    by_cases h : cur = []
    · rw [if_pos h] at ht; exact hargs t ht
    · rw [if_neg h] at ht
      rcases List.mem_append.mp ht with h1 | h1
      · exact hargs t h1
      · have ht' : t = String.mk cur := by simpa using h1
        subst ht'
        exact mk_ne_empty h
  | cons c rest ih =>
    intro cur q args hargs t ht
    match q with
    | some qc =>
      simp only [parseCmdAux] at ht
      by_cases h : c = qc
      · rw [if_pos h] at ht; exact ih cur none args hargs t ht
      · rw [if_neg h] at ht; exact ih (cur ++ [c]) (some qc) args hargs t ht
    | none =>
      simp only [parseCmdAux] at ht
      by_cases h1 : c = '"' ∨ c = '\''
      · rw [if_pos h1] at ht; exact ih cur (some c) args hargs t ht
      · rw [if_neg h1] at ht
        by_cases h2 : jsWhitespace c
        · rw [if_pos h2] at ht
          by_cases h3 : cur = []
          · rw [if_pos h3] at ht; exact ih [] none args hargs t ht
          · rw [if_neg h3] at ht
            refine ih [] none _ ?_ t ht
            intro a ha
            rcases List.mem_append.mp ha with ha | ha
            · exact hargs a ha
            · have ha' : a = String.mk cur := by simpa using ha
              subst ha'
              exact mk_ne_empty h3
        · rw [if_neg h2] at ht; exact ih (cur ++ [c]) none args hargs t ht

/-- Helper: a run of good characters is consumed into the current token
without emitting anything. -/
theorem parseCmdAux_consume (l : List Char) (hl : ∀ c ∈ l, goodChar c) :
    ∀ rest cur args,
      parseCmdAux (l ++ rest) cur none args = parseCmdAux rest (cur ++ l) none args := by
  induction l with
  | nil => intro rest cur args; simp
  | cons c l ih =>
    intro rest cur args
    obtain ⟨hws, hq1, hq2⟩ := hl c (by simp)
    have hl' : ∀ d ∈ l, goodChar d := fun d hd => hl d (by simp [hd])
    simp only [List.cons_append, parseCmdAux]
    rw [if_neg (by push_neg; exact ⟨hq1, hq2⟩), if_neg (by simp [hws])]
    simp only [List.append_eq]
    rw [ih hl' rest (cur ++ [c]) args]
    simp

/-- Helper: a space outside quotes flushes the nonempty current token. -/
theorem parseCmdAux_space (rest : List Char) (cur : List Char) (hcur : cur ≠ []) (args : List String) :
    parseCmdAux (' ' :: rest) cur none args = parseCmdAux rest [] none (args ++ [String.mk cur]) := by
  simp only [parseCmdAux]
  rw [if_neg (by decide), if_pos (by decide), if_neg hcur]

/-- Helper: parsing the space-join of nonempty, good-character tokens returns
exactly those tokens. -/
theorem parseCmdAux_join (ts : List String)
    (hts : ∀ t ∈ ts, t ≠ "" ∧ ∀ c ∈ t.data, goodChar c) :
    ∀ args, parseCmdAux (joinSpace ts).data [] none args = args ++ ts := by
  induction ts with
  | nil => intro args; simp [joinSpace, parseCmdAux]
  | cons t ts ih =>
    intro args
    obtain ⟨hne, hchars⟩ := hts t (by simp)
    have hdata_ne : t.data ≠ [] := by
      intro hd
      apply hne
      have : String.mk t.data = String.mk [] := congrArg String.mk hd
      simpa using this
    match ts with
    | [] =>
      show parseCmdAux (joinSpace [t]).data [] none args = args ++ [t]
      have hj : joinSpace [t] = t := rfl
      rw [hj]
      have := parseCmdAux_consume t.data hchars [] [] args
      simp only [List.append_nil, List.nil_append] at this
      rw [this]
      simp only [parseCmdAux]
      rw [if_neg hdata_ne]
    | t' :: ts' =>
      have hj : joinSpace (t :: t' :: ts') = t ++ " " ++ joinSpace (t' :: ts') := rfl
      rw [hj]
      have hsplit : (t ++ " " ++ joinSpace (t' :: ts')).data
          = t.data ++ (' ' :: (joinSpace (t' :: ts')).data) := by
        simp [String.data_append]
      rw [hsplit]
      have hcons := parseCmdAux_consume t.data hchars (' ' :: (joinSpace (t' :: ts')).data) [] args
      simp only [List.nil_append] at hcons
      rw [hcons]
      rw [parseCmdAux_space _ _ hdata_ne]
      have htail : ∀ u ∈ t' :: ts', u ≠ "" ∧ ∀ c ∈ u.data, goodChar c :=
        fun u hu => hts u (by simp [hu])
      rw [ih htail (args ++ [t])]
      simp

/-- C7 (amended): the claim as stated fails (see the counterexample); the
re-join/re-parse round trip is the identity whenever every parsed token
contains no whitespace and no quote characters. -/
theorem C7_rejoin_reparse (cmd : String)
    (hgood : ∀ t ∈ parseCommand cmd, ∀ c ∈ t.data, goodChar c) :
    parseCommand (joinSpace (parseCommand cmd)) = parseCommand cmd := by
  have hne : ∀ t ∈ parseCommand cmd, t ≠ "" :=
    parseCmdAux_ne_nil cmd.data [] none [] (by simp)
  have hj := parseCmdAux_join (parseCommand cmd)
    (fun t ht => ⟨hne t ht, hgood t ht⟩) []
  simpa [parseCommand] using hj

/-- C7 counterexample: `fill @e2 "hello world"` has balanced quotes, yet
re-joining its tokens with single spaces and re-parsing splits the quoted
token, so the round trip is not the identity. -/
theorem C7_counterexample :
    parseCommand (joinSpace (parseCommand "fill @e2 \"hello world\"")) ≠
      parseCommand "fill @e2 \"hello world\"" := by
  decide

/-- C7 witness: a command whose tokens are quote- and whitespace-free
round-trips. -/
theorem C7_witness :
    parseCommand (joinSpace (parseCommand "click @e3")) = parseCommand "click @e3" :=
  C7_rejoin_reparse "click @e3" (by decide)

/-- C10: the tokenizer drops an empty quoted span (no empty-string argument),
and a quoted span adjacent to unquoted characters with no intervening
whitespace fuses into a single token. -/
theorem C10_empty_and_adjacent_spans :
    parseCommand "fill @e2 \"\"" = ["fill", "@e2"] ∧
    parseCommand "a\"b c\"d" = ["ab cd"] := by
  exact ⟨rfl, rfl⟩

/-- C9: in both autonomous adapters, a request with no prior commands resets
the conversation history to empty before the call (the new history is
independent of the old one), a request with prior commands preserves it, and
in both cases the outgoing user message and the raw response text are appended
after the call. -/
theorem C9_history_lifecycle (h : List ChatMessage) (r : LLMRequest) (resp : String) :
    (r.previousActions = [] →
      (anthropicTurn h r resp).newHistory
          = [⟨"user", buildUserMessage r⟩, ⟨"assistant", resp⟩] ∧
      (githubTurn h r resp).newHistory
          = [⟨"user", buildUserMessage r⟩, ⟨"assistant", resp⟩]) ∧
    (r.previousActions ≠ [] →
      (anthropicTurn h r resp).newHistory
          = h ++ [⟨"user", buildUserMessage r⟩, ⟨"assistant", resp⟩] ∧
      (githubTurn h r resp).newHistory
          = h ++ [⟨"user", buildUserMessage r⟩, ⟨"assistant", resp⟩]) := by
  constructor
  · intro hempty
    simp [anthropicTurn, githubTurn, hempty]
  · intro hne
    have hlen : r.previousActions.length ≠ 0 := by
      simpa [List.length_eq_zero] using hne
    simp [anthropicTurn, githubTurn, hlen]

/-- C9 witness: concrete instances of both the reset and the append case. -/
theorem C9_witness :
    (anthropicTurn [⟨"user", "old"⟩]
        { systemPrompt := "sys", stepDescription := "do", expectedResult := "ok",
          browserState := "snap", previousActions := [], pageUrl := "u",
          pageTitle := "t", iteration := 1, maxIterations := 10 } "resp").newHistory
      = [⟨"user", buildUserMessage
            { systemPrompt := "sys", stepDescription := "do", expectedResult := "ok",
              browserState := "snap", previousActions := [], pageUrl := "u",
              pageTitle := "t", iteration := 1, maxIterations := 10 }⟩,
         ⟨"assistant", "resp"⟩] ∧
    (githubTurn [⟨"user", "old"⟩]
        { systemPrompt := "sys", stepDescription := "do", expectedResult := "ok",
          browserState := "snap", previousActions := ["click @e1"], pageUrl := "u",
          pageTitle := "t", iteration := 2, maxIterations := 10 } "resp").newHistory
      = [⟨"user", "old"⟩] ++
        [⟨"user", buildUserMessage
            { systemPrompt := "sys", stepDescription := "do", expectedResult := "ok",
              browserState := "snap", previousActions := ["click @e1"], pageUrl := "u",
              pageTitle := "t", iteration := 2, maxIterations := 10 }⟩,
         ⟨"assistant", "resp"⟩] :=
  ⟨((C9_history_lifecycle [⟨"user", "old"⟩] _ "resp").1 rfl).1,
   ((C9_history_lifecycle [⟨"user", "old"⟩] _ "resp").2 (by decide)).2⟩

/-- Helper: the retry loop makes at most `attempt + remaining` transport
calls. -/
theorem callApiLoop_calls_le (p : Provider) (t : Nat → ApiResponse) :
    ∀ remaining attempt le w, (callApiLoop p t remaining attempt le w).calls ≤ attempt + remaining := by
  intro remaining
  induction remaining with
  | zero => intro attempt le w; simp [callApiLoop]
  | succ rem ih =>
    intro attempt le w
    simp only [callApiLoop]
    split
    · exact le_trans (ih (attempt + 1) _ _) (by omega)
    · split
      · exact le_trans (ih (attempt + 1) _ _) (by omega)
      · split
        · show attempt + 1 ≤ attempt + (rem + 1); omega
        · show attempt + 1 ≤ attempt + (rem + 1); omega

/-- C3: the transport retry policy of both autonomous variants. A 429 waits
the retry-after hint when it parses to 1–60, else `min(10 * (attempt + 1), 30)`;
a transport that keeps returning 429 is called exactly 4 times (3 retries) and
the last transient error propagates; any other non-2xx status other than 429
(and 529 for the Anthropic variant, which backs off on its own schedule) is
fatal on the first response, with no retry and the provider-tagged error; no
run ever makes more than 4 transport calls. -/
theorem C3_retry_backoff :
    (∀ (p : Provider) (t : Nat → ApiResponse), (∀ n, (t n).status = 429) →
        callApi p t = ⟨[wait429 (t 0).retryAfter 0, wait429 (t 1).retryAfter 1,
            wait429 (t 2).retryAfter 2, wait429 (t 3).retryAfter 3],
          4, .error "Rate limited (429)"⟩) ∧
    (∀ (s : String) (a : Nat) (w : Int), jsParseInt s = some w → 0 < w → w ≤ 60 →
        wait429 (some s) a = w.toNat) ∧
    (∀ (ra : Option String) (a : Nat),
        (∀ w, ra.bind jsParseInt = some w → ¬(0 < w ∧ w ≤ 60)) →
        wait429 ra a = min (10 * (a + 1)) 30) ∧
    (∀ (p : Provider) (t : Nat → ApiResponse),
        (t 0).status ≠ 429 → ¬(p = Provider.anthropic ∧ (t 0).status = 529) →
        ¬(200 ≤ (t 0).status ∧ (t 0).status ≤ 299) →
        callApi p t = ⟨[], 1, .error (fatalMsg p (t 0).status (t 0).body)⟩) ∧
    (∀ (p : Provider) (t : Nat → ApiResponse), (callApi p t).calls ≤ 4) ∧
    (∀ (t : Nat → ApiResponse), (∀ n, (t n).status = 529) →
        callApi Provider.anthropic t
          = ⟨[15, 30, 45, 45], 4, .error "Anthropic overloaded (529)"⟩) := by
  refine ⟨?_, ?_, ?_, ?_, ?_, ?_⟩
  · intro p t ht
    simp [callApi, MAX_RETRIES, callApiLoop, ht]
  · intro s a w hparse h1 h2
    unfold wait429
    rw [Option.some_bind, hparse]
    simp [h1, h2]
  · intro ra a hbad
    unfold wait429
    match hra : ra.bind jsParseInt with
    | none => rfl
    | some w =>
      have hw := hbad w hra
      simp [hw]
  · intro p t h429 h529 hok
    simp only [callApi, MAX_RETRIES, callApiLoop]
    rw [if_neg h429, if_neg h529, if_neg hok]
  · intro p t
    exact le_trans (callApiLoop_calls_le p t (MAX_RETRIES + 1) 0 none []) (by simp [MAX_RETRIES])
  · intro t ht
    simp [callApi, MAX_RETRIES, callApiLoop, ht]

/-- C3 witness: a transport stuck on 429 without a retry hint is called four
times with the capped fallback backoff; a 500 from Anthropic is fatal on the
first call. -/
theorem C3_witness :
    callApi Provider.github (fun _ => ⟨429, none, ""⟩)
      = ⟨[10, 20, 30, 30], 4, .error "Rate limited (429)"⟩ ∧
    callApi Provider.anthropic (fun _ => ⟨500, none, "boom"⟩)
      = ⟨[], 1, .error "Anthropic API error 500: boom"⟩ := by
  constructor
  · have h := C3_retry_backoff.1 Provider.github
      (fun _ => ⟨429, none, ""⟩) (fun _ => rfl)
    rw [h]; rfl
  · have h := C3_retry_backoff.2.2.2.1 Provider.anthropic
      (fun _ => ⟨500, none, "boom"⟩)
      (by decide) (by decide) (by decide)
    rw [h]; rfl

/-- Helper: when every capture succeeds, the dispatch loop never throws. -/
theorem dispatchCommands_ok (env : StepEnv)
    (hc : ∀ n, ∃ o, env.capture n = Except.ok o) :
    ∀ cmds st, ∃ st1, dispatchCommands env cmds st = (st1, none) := by
  intro cmds
  induction cmds with
  | nil => intro st; exact ⟨st, rfl⟩
  | cons cmd rest ih =>
    intro st
    by_cases hcmd : cmd = "__SNAPSHOT__"
    · obtain ⟨o, ho⟩ := hc st.capCount
      simp only [dispatchCommands, if_pos hcmd, ho]
      exact ih _
    · simp only [dispatchCommands, if_neg hcmd]
      exact ih _

/-- Helper: when every capture succeeds and the decision source always
responds without the completion flag, the loop consumes all its fuel, exits
normally with the variables untouched, and makes one decide call per fuel
unit. -/
theorem runStepLoop_no_done (env : StepEnv) (sys : String) (s : TestStep)
    (hc : ∀ n, ∃ o, env.capture n = Except.ok o)
    (hd : ∀ r, ∃ a, env.decide r = Except.ok a ∧ a.done = false) :
    ∀ fuel st calls,
      (runStepLoop env sys s fuel st calls).exit = LoopExit.normal Status.pass "" ∧
      (runStepLoop env sys s fuel st calls).decideCalls = calls + fuel := by
  intro fuel
  induction fuel with
  | zero => intro st calls; exact ⟨rfl, rfl⟩
  | succ fuel ih =>
    intro st calls
    obtain ⟨a, hD, hdone⟩ := hd (mkRequest sys s st (MAX_ITERATIONS - (fuel + 1)))
    obtain ⟨st1, hDisp⟩ := dispatchCommands_ok env hc a.commands st
    obtain ⟨o, ho⟩ := hc st1.capCount
    have h1 := ih ⟨o, st1.allCommands, st1.capCount + 1⟩ (calls + 1)
    refine ⟨?_, ?_⟩
    · simp only [runStepLoop, hD, hDisp, hdone, ho, Bool.false_eq_true, if_false]
      exact h1.1
    · simp only [runStepLoop, hD, hDisp, hdone, ho, Bool.false_eq_true, if_false]
      rw [h1.2]; omega

/-- Helper: the loop never makes more decide calls than it has fuel. -/
theorem runStepLoop_calls_le (env : StepEnv) (sys : String) (s : TestStep) :
    ∀ fuel st calls, (runStepLoop env sys s fuel st calls).decideCalls ≤ calls + fuel := by
  intro fuel
  induction fuel with
  | zero => intro st calls; simp [runStepLoop]
  | succ fuel ih =>
    intro st calls
    simp only [runStepLoop]
    rcases hD : env.decide (mkRequest sys s st (MAX_ITERATIONS - (fuel + 1))) with e | a
    · dsimp only
      omega
    · dsimp only
      rcases hDisp : dispatchCommands env a.commands st with ⟨st1, opt⟩
      cases opt with
      | some e => dsimp only; omega
      | none =>
        dsimp only
        by_cases hdone : a.done = true
        · rw [if_pos hdone]
          dsimp only
          omega
        · rw [if_neg hdone]
          rcases ho : env.capture st1.capCount with e | o
          · dsimp only
            omega
          · exact le_trans (ih ⟨o, st1.allCommands, st1.capCount + 1⟩ (calls + 1)) (by omega)

/-- Helper: a normal loop exit carries status pass or fail, never error or
skipped. -/
theorem runStepLoop_normal_status (env : StepEnv) (sys : String) (s : TestStep) :
    ∀ fuel st calls stt act,
      (runStepLoop env sys s fuel st calls).exit = LoopExit.normal stt act →
      stt = Status.pass ∨ stt = Status.fail := by
  intro fuel
  induction fuel with
  | zero =>
    intro st calls stt act h
    simp only [runStepLoop] at h
    injection h with h1 h2
    exact Or.inl h1.symm
  | succ fuel ih =>
    intro st calls stt act h
    simp only [runStepLoop] at h
    rcases hD : env.decide (mkRequest sys s st (MAX_ITERATIONS - (fuel + 1))) with e | a
    · rw [hD] at h
      simp at h
    · rw [hD] at h
      dsimp only at h
      rcases hDisp : dispatchCommands env a.commands st with ⟨st1, opt⟩
      rw [hDisp] at h
      cases opt with
      | some e => simp at h
      | none =>
        dsimp only at h
        by_cases hdone : a.done = true
        · rw [if_pos hdone] at h
          dsimp only at h
          injection h with h1 h2
          by_cases hs : a.success = true
          · rw [if_pos hs] at h1; exact Or.inl h1.symm
          · rw [if_neg hs] at h1; exact Or.inr h1.symm
        · rw [if_neg hdone] at h
          rcases ho : env.capture st1.capCount with e | o
          · rw [ho] at h
            simp at h
          · rw [ho] at h
            dsimp only at h
            exact ih _ _ _ _ h

/-- Helper: the status of a step result is always pass, fail, or error (never
skipped). -/
theorem runStep_status_cases (env : StepEnv) (sys : String) (s : TestStep) :
    (runStep env sys s).1.status = Status.pass ∨
    (runStep env sys s).1.status = Status.fail ∨
    (runStep env sys s).1.status = Status.error := by
  unfold runStep
  rcases h0 : env.capture 0 with e | o
  · exact Or.inr (Or.inr rfl)
  · dsimp only
    rcases hx : (runStepLoop env sys s MAX_ITERATIONS ⟨o, [], 1⟩ 0).exit with ⟨stt, act⟩ | ⟨e⟩
    · dsimp only
      by_cases hcond : stt = Status.pass ∧ act = ""
      · rw [if_pos hcond]
        exact Or.inr (Or.inl rfl)
      · rw [if_neg hcond]
        rcases runStepLoop_normal_status env sys s MAX_ITERATIONS ⟨o, [], 1⟩ 0 stt act hx with h | h
        · exact Or.inl h
        · exact Or.inr (Or.inl h)
    · exact Or.inr (Or.inr rfl)

/-- Helper: invariant of the step-sequencing loop. Starting from an
accumulator with no error steps and an overall status matching the fail/pass
aggregation of the accumulator: the final status equals the
three-level aggregation (as the spec words it) of the final list, every result other than the last
is error-free (an error step stops the loop at once), and when no step
errored every remaining step was run. -/
theorem runCaseSteps_inv (cenv : CaseEnv) (sys : String) :
    ∀ (steps : List TestStep) (i : Nat) (overall : Status) (acc : List StepResult),
      (∀ r ∈ acc, r.status ≠ Status.error) →
      overall = (if acc.any (fun r => r.status = Status.fail) then Status.fail else Status.pass) →
      (runCaseSteps cenv sys steps i overall acc).1
          = aggregateSpec (runCaseSteps cenv sys steps i overall acc).2 ∧
      (∀ r ∈ (runCaseSteps cenv sys steps i overall acc).2.dropLast, r.status ≠ Status.error) ∧
      ((∀ r ∈ (runCaseSteps cenv sys steps i overall acc).2, r.status ≠ Status.error) →
        (runCaseSteps cenv sys steps i overall acc).2.length = acc.length + steps.length) := by
  intro steps
  induction steps with
  | nil =>
    intro i overall acc hacc hoverall
    subst hoverall
    simp only [runCaseSteps]
    refine ⟨?_, ?_, ?_⟩
    · have hne : (acc.any fun r => decide (r.status = Status.error)) = false := by
        simp only [List.any_eq_false, decide_eq_true_eq]
        exact hacc
      simp only [aggregateSpec, hne, Bool.false_eq_true, if_false]
    · intro r hr
      exact hacc r (List.dropLast_subset _ hr)
    · intro _
      simp
  | cons s rest ih =>
    intro i overall acc hacc hoverall
    subst hoverall
    simp only [runCaseSteps]
    by_cases herr : (runStep (cenv.stepEnv i) sys s).1.status = Status.error
    · rw [if_pos herr]
      refine ⟨?_, ?_, ?_⟩
      · have hane : ((acc ++ [(runStep (cenv.stepEnv i) sys s).1]).any
            fun r => decide (r.status = Status.error)) = true := by
          simp [List.any_append, herr]
        simp only [aggregateSpec, hane, if_true]
        simp [herr]
      · intro r hr
        dsimp only at hr
        rw [List.dropLast_concat] at hr
        exact hacc r hr
      · intro hall
        exact absurd herr (hall _ (by simp))
    · rw [if_neg herr]
      have hacc1 : ∀ r ∈ acc ++ [(runStep (cenv.stepEnv i) sys s).1], r.status ≠ Status.error := by
        intro r hr
        rcases List.mem_append.mp hr with h | h
        · exact hacc r h
        · simp only [List.mem_singleton] at h
          subst h; exact herr
      have hoverall1 :
          (if (runStep (cenv.stepEnv i) sys s).1.status ≠ Status.pass then
            (if (runStep (cenv.stepEnv i) sys s).1.status = Status.error then Status.error
              else Status.fail)
          else (if acc.any (fun r => r.status = Status.fail) then Status.fail else Status.pass))
          = (if (acc ++ [(runStep (cenv.stepEnv i) sys s).1]).any
              (fun r => r.status = Status.fail) then Status.fail else Status.pass) := by
        rcases runStep_status_cases (cenv.stepEnv i) sys s with hp | hf | he
        · simp [hp, List.any_append]
        · simp [hf, List.any_append]
        · exact absurd he herr
      have H := ih (i + 1) _ _ hacc1 hoverall1
      refine ⟨H.1, H.2.1, ?_⟩
      intro hall
      rw [H.2.2 hall, List.length_append]
      simp
      omega

/-- C1: when every observation capture succeeds and the decision source always
responds without ever setting the completion flag, the step loop calls the
decision source exactly 10 times (the ceiling) and ends the step as a fail
with the timeout text; and no run of a step, under any environment, ever makes
more than 10 decision-source calls. -/
theorem C1_iteration_ceiling :
    (∀ (env : StepEnv) (sys : String) (s : TestStep),
      (∀ n, ∃ o, env.capture n = Except.ok o) →
      (∀ r, ∃ a, env.decide r = Except.ok a ∧ a.done = false) →
      (runStep env sys s).2 = 10 ∧
      (runStep env sys s).1.status = Status.fail ∧
      (runStep env sys s).1.actual = stepTimeoutMessage) ∧
    (∀ (env : StepEnv) (sys : String) (s : TestStep), (runStep env sys s).2 ≤ 10) := by
  constructor
  · intro env sys s hc hd
    obtain ⟨o, ho⟩ := hc 0
    have hloop := runStepLoop_no_done env sys s hc hd MAX_ITERATIONS ⟨o, [], 1⟩ 0
    refine ⟨?_, ?_, ?_⟩
    · unfold runStep
      rw [ho]
      dsimp only
      rw [hloop.1]
      dsimp only
      rw [if_pos ⟨rfl, rfl⟩]
      dsimp only
      rw [hloop.2]
      rfl
    · unfold runStep
      rw [ho]
      dsimp only
      rw [hloop.1]
      dsimp only
      rw [if_pos ⟨rfl, rfl⟩]
    · unfold runStep
      rw [ho]
      dsimp only
      rw [hloop.1]
      dsimp only
      rw [if_pos ⟨rfl, rfl⟩]
  · intro env sys s
    unfold runStep
    rcases h0 : env.capture 0 with e | o
    · dsimp only
      omega
    · dsimp only
      rcases hx : (runStepLoop env sys s MAX_ITERATIONS ⟨o, [], 1⟩ 0).exit with ⟨stt, act⟩ | ⟨e⟩
      · dsimp only
        by_cases hcond : stt = Status.pass ∧ act = ""
        · rw [if_pos hcond]
          exact runStepLoop_calls_le env sys s MAX_ITERATIONS ⟨o, [], 1⟩ 0
        · rw [if_neg hcond]
          exact runStepLoop_calls_le env sys s MAX_ITERATIONS ⟨o, [], 1⟩ 0
      · exact runStepLoop_calls_le env sys s MAX_ITERATIONS ⟨o, [], 1⟩ 0

/-- C1 witness: a concrete never-done decision source yields exactly 10 calls
and the timeout fail. -/
theorem C1_witness :
    (runStep envNoDone "sys" ⟨1, "do", "see"⟩).2 = 10 ∧
    (runStep envNoDone "sys" ⟨1, "do", "see"⟩).1.status = Status.fail ∧
    (runStep envNoDone "sys" ⟨1, "do", "see"⟩).1.actual = stepTimeoutMessage :=
  C1_iteration_ceiling.1 envNoDone "sys" ⟨1, "do", "see"⟩
    (fun _ => ⟨obsW, rfl⟩) (fun _ => ⟨⟨"thinking", [], false, false, ""⟩, rfl, rfl⟩)

/-- C2: the claim is right per the spec, but the code cannot deliver it —
observation capture never reaches the error path the claim (and the catch
block of `runTestCase`) describe. First conjunct: for every browser transport,
the capture the runner builds on `runBrowserCommand` returns `Except.ok` (the
subprocess failure is swallowed into `success := false` and the helpers
return stdout unconditionally), so the claimed error transition is
unreachable from a capture failure. At the failing input — a browser whose
every command fails — the step therefore proceeds with an empty observation
instead of erroring: with a never-completing decision source it runs all 10
iterations and ends as a "fail" with the timeout text, not "error", and the
remaining steps of the case still run, with aggregate status "fail". -/
theorem C2_capture_failure_divergence :
    (∀ runCmd : List String → BrowserCommandResult,
      captureFromBrowser runCmd
        = Except.ok ⟨(runCmd ["snapshot", "-i", "-c"]).stdout,
            (runCmd ["get", "url"]).stdout, (runCmd ["get", "title"]).stdout⟩) ∧
    (runStep envBrokenBrowser "sys" ⟨1, "do", "see"⟩).1.status = Status.fail ∧
    (runStep envBrokenBrowser "sys" ⟨1, "do", "see"⟩).1.actual = stepTimeoutMessage ∧
    (runStep envBrokenBrowser "sys" ⟨1, "do", "see"⟩).1.status ≠ Status.error ∧
    (runCase cenvBrokenBrowser "sys" "TC1" [⟨1, "a", "x"⟩, ⟨2, "b", "y"⟩]).steps.length = 2 ∧
    (runCase cenvBrokenBrowser "sys" "TC1" [⟨1, "a", "x"⟩, ⟨2, "b", "y"⟩]).status
      = Status.fail := by
  refine ⟨fun runCmd => rfl, rfl, rfl, by decide, rfl, rfl⟩

/-- C4: a raw response that fails the JSON parse (after fence stripping)
yields the safe default action — no commands, completion flag false, rationale
carrying the 200-unit excerpt of the raw text — and the step loop, on
receiving that action, recaptures and proceeds to its next iteration rather
than ending the step. -/
theorem C4_parse_failure_recovery :
    (∀ (jsonParse : String → Option ParsedFields) (raw : String),
      jsonParse (stripFences raw) = none →
      parseAgentResponse jsonParse raw
        = ⟨"Parse error — raw response: " ++ jsSlice raw 200, [], false, false, ""⟩) ∧
    (∀ (env : StepEnv) (sys : String) (s : TestStep) (fuel : Nat) (st : DispatchState)
        (calls : Nat) (jsonParse : String → Option ParsedFields) (raw : String)
        (o : Observation),
      jsonParse (stripFences raw) = none →
      env.decide (mkRequest sys s st (MAX_ITERATIONS - (fuel + 1)))
          = Except.ok (parseAgentResponse jsonParse raw) →
      env.capture st.capCount = Except.ok o →
      runStepLoop env sys s (fuel + 1) st calls
        = runStepLoop env sys s fuel ⟨o, st.allCommands, st.capCount + 1⟩ (calls + 1)) := by
  constructor
  · intro jsonParse raw hnone
    unfold parseAgentResponse
    rw [hnone]
  · intro env sys s fuel st calls jsonParse raw o hnone hD hcap
    have ha : parseAgentResponse jsonParse raw
        = ⟨"Parse error — raw response: " ++ jsSlice raw 200, [], false, false, ""⟩ := by
      unfold parseAgentResponse
      rw [hnone]
    simp only [runStepLoop, hD, ha, dispatchCommands, hcap, Bool.false_eq_true, if_false]

/-- C4 witness: a concrete unparsable response yields the safe default, and
the loop with that response steps to its next iteration. -/
theorem C4_witness :
    parseAgentResponse (fun _ => none) "oops not json"
      = ⟨"Parse error — raw response: " ++ jsSlice "oops not json" 200, [], false, false, ""⟩ ∧
    runStepLoop envParseFail "sys" ⟨1, "do", "see"⟩ (9 + 1) ⟨obsW, [], 1⟩ 0
      = runStepLoop envParseFail "sys" ⟨1, "do", "see"⟩ 9 ⟨obsW, [], 2⟩ 1 :=
  ⟨C4_parse_failure_recovery.1 (fun _ => none) "oops not json" rfl,
   C4_parse_failure_recovery.2 envParseFail "sys" ⟨1, "do", "see"⟩ 9 ⟨obsW, [], 1⟩ 0
     (fun _ => none) "oops not json" obsW rfl rfl rfl⟩

/-- C5: the case status `runCase` computes equals the error-beats-fail-
beats-pass aggregation (as the spec words it) of the processed step results; when no step errored,
every step of the case was processed (a judged fail does not stop the run);
and only the last processed result can be an error (an error stops the run at
once). -/
theorem C5_aggregate_status :
    (∀ (cenv : CaseEnv) (sys testId : String) (steps : List TestStep),
      (runCase cenv sys testId steps).status
        = aggregateSpec (runCase cenv sys testId steps).steps) ∧
    (∀ (cenv : CaseEnv) (sys testId : String) (steps : List TestStep),
      (∀ r ∈ (runCase cenv sys testId steps).steps, r.status ≠ Status.error) →
      (runCase cenv sys testId steps).steps.length = steps.length) ∧
    (∀ (cenv : CaseEnv) (sys testId : String) (steps : List TestStep),
      ∀ r ∈ (runCase cenv sys testId steps).steps.dropLast, r.status ≠ Status.error) := by
  refine ⟨?_, ?_, ?_⟩ <;> intro cenv sys testId steps
  · exact (runCaseSteps_inv cenv sys steps 0 Status.pass [] (by simp) (by rfl)).1
  · intro hall
    have H := (runCaseSteps_inv cenv sys steps 0 Status.pass [] (by simp) (by rfl)).2.2 hall
    simpa using H
  · exact (runCaseSteps_inv cenv sys steps 0 Status.pass [] (by simp) (by rfl)).2.1

/-- C5 witness: a case whose first step fails still runs its second step, and
the computed status matches the spec aggregation. -/
theorem C5_witness :
    (runCase cenvW "sys" "TC1" [⟨1, "a", "x"⟩, ⟨2, "b", "y"⟩]).steps.length = 2 ∧
    (runCase cenvW "sys" "TC1" [⟨1, "a", "x"⟩, ⟨2, "b", "y"⟩]).status
      = aggregateSpec (runCase cenvW "sys" "TC1" [⟨1, "a", "x"⟩, ⟨2, "b", "y"⟩]).steps :=
  ⟨C5_aggregate_status.2.1 cenvW "sys" "TC1" [⟨1, "a", "x"⟩, ⟨2, "b", "y"⟩] (by decide),
   C5_aggregate_status.1 cenvW "sys" "TC1" [⟨1, "a", "x"⟩, ⟨2, "b", "y"⟩]⟩

/-- C6 (amended): the claim as stated fails when the observed-outcome text of
the response is empty (see the counterexample); when every capture
succeeds and the decision source returns completion flag true and success flag
true with a nonempty observed-outcome text on the first iteration, the step
passes with that text verbatim after exactly one decision-source call. -/
theorem C6_first_iteration_pass (env : StepEnv) (sys : String) (s : TestStep)
    (a : AgentAction) (o : Observation)
    (hc : ∀ n, ∃ o2, env.capture n = Except.ok o2)
    (h0 : env.capture 0 = Except.ok o)
    (hD : env.decide (mkRequest sys s ⟨o, [], 1⟩ 0) = Except.ok a)
    (hdone : a.done = true) (hsucc : a.success = true) (hne : a.actual_result ≠ "") :
    (runStep env sys s).1.status = Status.pass ∧
    (runStep env sys s).1.actual = a.actual_result ∧
    (runStep env sys s).2 = 1 := by
  obtain ⟨st1, hDisp⟩ := dispatchCommands_ok env hc a.commands ⟨o, [], 1⟩
  have hfuel : MAX_ITERATIONS = 9 + 1 := rfl
  have hiter : MAX_ITERATIONS - (9 + 1) = 0 := rfl
  have hloop : runStepLoop env sys s MAX_ITERATIONS ⟨o, [], 1⟩ 0
      = ⟨.normal (if a.success = true then Status.pass else Status.fail) a.actual_result,
          st1.allCommands, 0 + 1, st1.capCount⟩ := by
    rw [hfuel]
    simp only [runStepLoop]
    rw [hiter, hD]
    dsimp only
    rw [hDisp]
    dsimp only
    rw [if_pos hdone]
  have hstep : runStep env sys s
      = (⟨s.step, s.action, s.expected, Status.pass, a.actual_result, st1.allCommands,
          match env.shot with | .ok p => some p | .error _ => none⟩, 0 + 1) := by
    unfold runStep
    rw [h0]
    dsimp only
    rw [hloop]
    dsimp only
    rw [if_pos hsucc]
    rw [if_neg (fun hcontra => hne hcontra.2)]
  rw [hstep]
  exact ⟨rfl, rfl, rfl⟩

/-- C6 counterexample: a first-iteration response with completion flag true
and success flag true but an empty observed-outcome text does not give a
passing step — the post-loop timeout check rewrites it to a fail with the
timeout message (one decide call is made). -/
theorem C6_counterexample :
    (runStep envDoneEmpty "sys" ⟨1, "do", "see"⟩).1.status ≠ Status.pass ∧
    (runStep envDoneEmpty "sys" ⟨1, "do", "see"⟩).1.status = Status.fail ∧
    (runStep envDoneEmpty "sys" ⟨1, "do", "see"⟩).1.actual = stepTimeoutMessage ∧
    (runStep envDoneEmpty "sys" ⟨1, "do", "see"⟩).2 = 1 := by
  refine ⟨by decide, rfl, rfl, rfl⟩

/-- C6 witness: with a nonempty observed-outcome text the step passes
verbatim in one iteration. -/
theorem C6_witness :
    (runStep envDoneOk "sys" ⟨1, "do", "see"⟩).1.status = Status.pass ∧
    (runStep envDoneOk "sys" ⟨1, "do", "see"⟩).1.actual = "all good" ∧
    (runStep envDoneOk "sys" ⟨1, "do", "see"⟩).2 = 1 :=
  C6_first_iteration_pass envDoneOk "sys" ⟨1, "do", "see"⟩ ⟨"", [], true, true, "all good"⟩ obsW
    (fun _ => ⟨obsW, rfl⟩) rfl rfl rfl rfl (by decide)

end Testpilot
